import Mathlib

/-!
Shallow embedding of the authenticated reverse-proxy core of the
React-Power-Portal-Proxy repository (proxy/src/app.js, proxy/src/auth.js,
proxy/src/db.js), together with theorems checking the specification's claims
about it.

Conventions of the embedding:
* JavaScript strings are Lean `String`s; where a proof needs structural
  recursion over the characters they are handled as `List Char` (a Lean
  `String` is exactly a packed `List Char`).
* Node header maps are association lists with unique, lower-cased keys, the
  way Node normalizes and stores incoming headers.  A header value is either
  a single string or an array of strings (`set-cookie`).
* JavaScript truthiness is modelled where the source tests a value directly
  (`if (x)`): the empty string is falsy, any array object is truthy.
* Byte buffers are `List Nat`; the zlib decompression routines and the UTF-8
  decoder are opaque parameters (they may throw, hence `Option`).
* Fallible operations return `Option`; the wall clock is an explicit `Int`
  millisecond timestamp argument.
-/

set_option maxRecDepth 8192

namespace PortalProxy

/-- A Node header value: a plain string, or an array of strings (as used for
repeated `set-cookie` response headers). -/
inductive HdrVal where
  | str (s : String)
  | arr (l : List String)
  deriving DecidableEq

/-- JavaScript truthiness of a header value: the empty string is falsy, any
array object (even an empty one) is truthy. -/
def HdrVal.truthy : HdrVal → Bool
  | .str s => s != ""
  | .arr _ => true

/-- A Node header map: an association list with unique lower-cased keys. -/
abbrev Headers := List (String × HdrVal)

/-- JavaScript object property read on a header map (`headers[name]`). -/
def getHdr (h : Headers) (k : String) : Option HdrVal :=
  (h.find? (fun p => p.1 == k)).map (fun p => p.2)

/-- Reads a header whose value is a plain string (`content-type`,
`content-encoding` and the like are never arrays). -/
def hdrStr (h : Headers) (k : String) : Option String :=
  match getHdr h k with
  | some (HdrVal.str s) => some s
  | _ => none

/-- Boolean prefix test on character lists. -/
def isPrefixL : List Char → List Char → Bool
  | [], _ => true
  | _ :: _, [] => false
  | p :: ps, x :: xs => p == x && isPrefixL ps xs

/-- JavaScript `String.prototype.startsWith`, spelled out over the underlying
character list. -/
def jsStartsWith (s pre : String) : Bool := isPrefixL pre.data s.data

/-- JavaScript `String.prototype.includes` (substring occurrence). -/
def containsSub (pat : List Char) : List Char → Bool
  | [] => isPrefixL pat []
  | x :: xs => isPrefixL pat (x :: xs) || containsSub pat xs

/-- A captured browser cookie as stored in the auth bundle; only the fields
the proxy source reads and writes are modelled. -/
structure Cookie where
  name : String
  value : String
  domain : String
  path : String
  deriving DecidableEq

/-- A request/response body value: a JavaScript string, or a non-string value
represented by its JSON serialization. -/
inductive BodyVal where
  | str (s : String)
  | obj (json : String)
  deriving DecidableEq

/-- The in-memory authentication bundle (`persistentAuthData` in auth.js and
`globalAuthData` in app.js); `none` fields model JavaScript `null`.  The
on-disk session file serializes exactly this record. -/
structure AuthBundle where
  cookies : Option (List Cookie)
  headers : Option (List (String × String))
  userData : Option String
  lastRefreshed : Option Int
  deriving DecidableEq

/-! ## db.js — the Exchange Log (sqlite `Database` class) -/

/-- The fixed sensitive header names redacted by `sanitizeHeaders`. -/
def sensitiveHeaders : List String :=
  ["authorization", "cookie", "set-cookie", "x-auth-token"]

/-- db.js `Database.sanitizeHeaders`: copies the header map and overwrites the
entry of each sensitive header name with the redaction marker — but only when
the existing value is truthy (`if (sanitized[header])`). -/
def sanitizeHeaders (h : Headers) : Headers :=
  h.map (fun p =>
    if sensitiveHeaders.contains p.1 && p.2.truthy then (p.1, HdrVal.str "[REDACTED]")
    else p)

/-- db.js `Database.truncateBody`, the method `Database.logApiRequest` calls:
null for a null body, a string body returned unchanged, a non-string body
JSON-stringified; no length cut is performed. -/
def databaseTruncateBody : Option BodyVal → Option String
  | none => none
  | some (BodyVal.str s) => some s
  | some (BodyVal.obj j) => some j

/-- db.js module-level `truncateBody` (documented as truncating bodies to
avoid huge log entries): strings longer than 2000 characters are cut to their
first 2000 characters plus an ellipsis.  This helper is not reached from
`Database.logApiRequest`.  JavaScript `substring` counts UTF-16 units;
modelled as characters. -/
def moduleTruncateBody : Option BodyVal → Option String
  | none => none
  | some (BodyVal.str s) =>
      some (if 2000 < s.data.length then String.mk (s.data.take 2000) ++ "..." else s)
  | some (BodyVal.obj j) =>
      some (if 2000 < j.data.length then String.mk (j.data.take 2000) ++ "..." else j)

/-- JSON string-literal quoting, used when `Database.logApiRequest`
re-stringifies the non-string result of `Database.truncateBody` (escaping of
control characters is elided; quote and backslash are escaped). -/
def jsonQuoteString (s : String) : String :=
  String.mk ('"' :: (s.data.flatMap (fun c =>
    if c = '"' then ['\\', '"'] else if c = '\\' then ['\\', '\\'] else [c])) ++ ['"'])

/-- The body column written by `Database.logApiRequest`:
`typeof body === 'string' ? this.truncateBody(body) :
JSON.stringify(this.truncateBody(body))`. -/
def storedBodyField : Option BodyVal → Option String
  | some (BodyVal.str s) => databaseTruncateBody (some (BodyVal.str s))
  | some (BodyVal.obj j) => some (jsonQuoteString j)
  | none => some "null"

/-- The request-side data assembled by app.js before logging. -/
structure ReqData where
  method : String
  url : String
  path : String
  headers : Headers
  body : Option BodyVal
  query : List (String × String)
  deriving DecidableEq

/-- The response-side data assembled by app.js before logging. -/
structure RespData where
  statusCode : Nat
  statusMessage : String
  headers : Headers
  body : Option BodyVal
  contentType : String
  duration : Int
  deriving DecidableEq

/-- The path filter shared by the request-logging middleware in app.js and by
`Database.logApiRequest`: dashboard routes and internal management routes are
never logged. -/
def skipLogging (path : String) : Bool :=
  jsStartsWith path "/dashboard" ||
    (jsStartsWith path "/power-portal-proxy/" && !(jsStartsWith path "/api/v1/"))

/-- One row of the `api_logs` table. -/
structure StoredExchange where
  method : String
  url : String
  path : String
  requestHeaders : Headers
  requestBody : Option String
  query : List (String × String)
  statusCode : Nat
  statusMessage : String
  responseHeaders : Headers
  responseBody : Option String
  contentType : String
  duration : Int
  deriving DecidableEq

/-- JavaScript `x || d` on strings: the empty string falls back to `d`. -/
def jsOrStr (s d : String) : String := if s == "" then d else s

/-- db.js `Database.logApiRequest`: the row inserted into `api_logs`, or
`none` when the path filter skips the exchange.  The `|| default` fallbacks
of the source are modelled on the fields where a falsy value changes them
(`method`, `statusCode`, `statusMessage`, `contentType`). -/
def logApiRequest (rq : ReqData) (rs : RespData) : Option StoredExchange :=
  if skipLogging rq.path then none
  else some {
    method := jsOrStr rq.method "UNKNOWN"
    url := rq.url
    path := rq.path
    requestHeaders := sanitizeHeaders rq.headers
    requestBody := storedBodyField rq.body
    query := rq.query
    statusCode := if rs.statusCode == 0 then 500 else rs.statusCode
    statusMessage := jsOrStr rs.statusMessage "Unknown Status"
    responseHeaders := sanitizeHeaders rs.headers
    responseBody := storedBodyField rs.body
    contentType := jsOrStr rs.contentType "unknown"
    duration := rs.duration }

/-! ## auth.js — session store, identity verifier, refresh -/

/-- The distinguished portal session cookie. -/
def aspNetCookieName : String := ".AspNet.ApplicationCookie"

/-- Models `cookies.find(cookie => cookie.name === '.AspNet.ApplicationCookie')`. -/
def findAspNetCookie (cs : List Cookie) : Option Cookie :=
  cs.find? (fun c => c.name == aspNetCookieName)

/-- auth.js `tryLoadSessionData` freshness computation:
`(now - lastRefreshed) / (1000 * 60 * 60)`, exact rational division of
millisecond timestamps. -/
def hoursSinceRefresh (now lastRefreshed : Int) : ℚ :=
  ((now - lastRefreshed : Int) : ℚ) / (1000 * 60 * 60)

/-- auth.js `tryLoadSessionData`: returns the parsed session file when it
exists and `hoursSinceRefresh < 12`, otherwise nothing.  A file without a
parsable `lastRefreshed` produces a NaN age, which fails the `< 12`
comparison and is treated as expired. -/
def tryLoadSessionData (file : Option AuthBundle) (now : Int) : Option AuthBundle :=
  match file with
  | none => none
  | some d =>
    match d.lastRefreshed with
    | some lr => if hoursSinceRefresh now lr < 12 then some d else none
    | none => none

/-- app.js lines 15–24: at startup the proxy unconditionally removes any
existing session data file (`fs.unlinkSync(SESSION_FILE_PATH)`) before any
authentication code runs, so whatever the previous process saved is gone. -/
def startupRemoveSessionFile (_file : Option AuthBundle) : Option AuthBundle := none

/-- auth.js `callWhoamiAPI` given the identity endpoint `net` (cookie value →
response payload, `none` for a failed request): without the distinguished
cookie it throws before issuing any request (caught, returning null); with it,
exactly one network request is made.  Returns the payload and the number of
network requests issued. -/
def callWhoamiAPI (cs : List Cookie) (net : String → Option String) :
    Option String × Nat :=
  match findAspNetCookie cs with
  | none => (none, 0)
  | some c => (net c.value, 1)

/-- Result of auth.js `verifySession`: validity verdict, how many identity
network requests were made, and the updated `persistentAuthData` written on
success. -/
structure VerifyOutcome where
  valid : Bool
  whoamiCalls : Nat
  updated : Option AuthBundle
  deriving DecidableEq

/-- auth.js `verifySession`: missing session data, missing cookie set or a
missing distinguished cookie fail immediately with no network traffic;
otherwise one `callWhoamiAPI` round-trip decides validity, and on success the
persistent bundle is refreshed with the new `userData` and `lastRefreshed`. -/
def verifySession (sd : Option AuthBundle) (net : String → Option String) (now : Int) :
    VerifyOutcome :=
  match sd with
  | none => { valid := false, whoamiCalls := 0, updated := none }
  | some d =>
    match d.cookies with
    | none => { valid := false, whoamiCalls := 0, updated := none }
    | some cs =>
      match findAspNetCookie cs with
      | none => { valid := false, whoamiCalls := 0, updated := none }
      | some c =>
        match net c.value with
        | some u =>
          { valid := true, whoamiCalls := 1,
            updated := some { d with userData := some u, lastRefreshed := some now } }
        | none => { valid := false, whoamiCalls := 1, updated := none }

/-- Result of auth.js `refreshSession`: the bundle returned when no
interactive authentication is needed, the number of identity network requests
made, and whether the interactive browser flow (`authenticate`) runs. -/
structure RefreshOutcome where
  bundle : Option AuthBundle
  whoamiCalls : Nat
  interactiveAuth : Bool
  deriving DecidableEq

/-- auth.js `refreshSession`: with a cached cookie set it verifies the current
bundle (one identity round-trip) and, if valid, returns the refreshed bundle;
an invalid bundle or an absent cookie set falls through to the interactive
`authenticate` flow. -/
def refreshSession (pad : AuthBundle) (net : String → Option String) (now : Int) :
    RefreshOutcome :=
  match pad.cookies with
  | some _ =>
    let v := verifySession (some pad) net now
    if v.valid then
      { bundle := some (v.updated.getD pad), whoamiCalls := v.whoamiCalls,
        interactiveAuth := false }
    else
      { bundle := none, whoamiCalls := v.whoamiCalls, interactiveAuth := true }
  | none => { bundle := none, whoamiCalls := 0, interactiveAuth := true }

/-- Two successive `refreshSession` calls; the second operates on the
persistent bundle left behind by the first (meaningful when the first call
did not need interactive authentication). -/
def refreshTwice (pad : AuthBundle) (net : String → Option String) (now1 now2 : Int) :
    RefreshOutcome × RefreshOutcome :=
  let r1 := refreshSession pad net now1
  let pad2 := r1.bundle.getD pad
  (r1, refreshSession pad2 net now2)

/-! ## app.js — proxy pipeline, request phase (`onProxyReq`) -/

/-- Node `ClientRequest.removeHeader`: deletes the binding of a header name. -/
def removeHeader (h : Headers) (k : String) : Headers :=
  h.filter (fun p => p.1 != k)

/-- Node `ClientRequest.setHeader`: replaces an existing binding, otherwise
appends a new one. -/
def setHeader (h : Headers) (k : String) (v : HdrVal) : Headers :=
  if (h.find? (fun p => p.1 == k)).isSome then
    h.map (fun p => if p.1 == k then (k, v) else p)
  else h ++ [(k, v)]

/-- The client credential headers app.js `onProxyReq` strips before
forwarding. -/
def headersToRemove : List String :=
  ["authorization", "cookie", "auth-token", "x-auth-token"]

/-- The removal loop of `onProxyReq`:
`if (proxyReq.getHeader(header)) proxyReq.removeHeader(header)` for each name
in `headersToRemove` — the removal is guarded by JavaScript truthiness of the
current value. -/
def stripClientCredentialHeaders (h : Headers) : Headers :=
  headersToRemove.foldl
    (fun acc name =>
      match getHdr acc name with
      | some v => if v.truthy then removeHeader acc name else acc
      | none => acc) h

/-- app.js `onProxyReq`: strips (truthy) client credential headers, injects
every header of the auth bundle, then sets a single concatenated `Cookie`
header built from the bundle's cookie set when it is non-empty.  Header names
are modelled lower-cased, as Node treats them case-insensitively. -/
def onProxyReq (clientHeaders : Headers) (authData : Option AuthBundle) : Headers :=
  let afterRemove := stripClientCredentialHeaders clientHeaders
  let afterInject :=
    match authData with
    | some ad =>
      match ad.headers with
      | some hs => hs.foldl (fun h p => setHeader h p.1 (HdrVal.str p.2)) afterRemove
      | none => afterRemove
    | none => afterRemove
  match authData with
  | some ad =>
    match ad.cookies with
    | some cs =>
      let cookieString :=
        String.intercalate "; " (cs.map (fun c => c.name ++ "=" ++ c.value))
      if cookieString != "" then setHeader afterInject "cookie" (HdrVal.str cookieString)
      else afterInject
    | none => afterInject
  | none => afterInject

/-! ## app.js — Set-Cookie merge on proxied responses -/

/-- JavaScript `String.prototype.split` with a single-character separator. -/
def splitOnChar (c : Char) : List Char → List (List Char)
  | [] => [[]]
  | x :: xs =>
    let r := splitOnChar c xs
    if x = c then [] :: r
    else
      match r with
      | h :: t => (x :: h) :: t
      | [] => [[x]]

/-- app.js `onProxyRes` Set-Cookie handling: the text before the first
semicolon is destructured from its split on the equals sign
(`const [name, value] = mainPart.split('=')`); a falsy name or value
(empty, or an absent second segment) aborts the upsert. -/
def parseSetCookie (s : List Char) : Option (List Char × List Char) :=
  let mainPart := (splitOnChar ';' s).headD []
  match splitOnChar '=' mainPart with
  | n :: v :: _ => if n ≠ [] ∧ v ≠ [] then some (n, v) else none
  | _ => none

/-- The cookie upsert of `onProxyRes`: update the first cookie whose name
matches in place, otherwise push a new cookie with domain `localhost` and
path `/`. -/
def upsertCookie : List Cookie → String → String → List Cookie
  | [], n, v => [{ name := n, value := v, domain := "localhost", path := "/" }]
  | c :: cs, n, v =>
    if c.name == n then { c with value := v } :: cs
    else c :: upsertCookie cs n v

/-- Processing of one `Set-Cookie` header string against the live cookie
set. -/
def mergeSetCookie (cs : List Cookie) (s : List Char) : List Cookie :=
  match parseSetCookie s with
  | some (n, v) => upsertCookie cs (String.mk n) (String.mk v)
  | none => cs

/-- app.js `onProxyRes`: the Set-Cookie merge runs only when the response
carried `set-cookie` headers and a live bundle with a cookie set exists
(`if (cookies && globalAuthData && globalAuthData.cookies)`). -/
def mergeSetCookies (setCookies : Option (List (List Char))) (gad : Option AuthBundle) :
    Option AuthBundle :=
  match setCookies, gad with
  | some scs, some g =>
    match g.cookies with
    | some cs => some { g with cookies := some (scs.foldl mergeSetCookie cs) }
    | none => some g
  | _, g => g

/-- JavaScript object property write on a string-valued map. -/
def setKV (l : List (String × String)) (k v : String) : List (String × String) :=
  if (l.find? (fun p => p.1 == k)).isSome then
    l.map (fun p => if p.1 == k then (k, v) else p)
  else l ++ [(k, v)]

/-- The auth-relevant response headers `onProxyRes` copies back into the live
bundle. -/
def respAuthHeaders : List String := ["authorization", "x-auth-token", "x-csrf-token"]

/-- app.js `onProxyRes` lines 555–560: truthy auth-relevant response headers
are written into the bundle's header map (these headers are plain strings on
a Node response). -/
def mergeAuthHeaders (respHeaders : Headers) (gad : Option AuthBundle) :
    Option AuthBundle :=
  match gad with
  | none => none
  | some g =>
    match g.headers with
    | none => some g
    | some hs =>
      some { g with headers := some (respAuthHeaders.foldl
        (fun acc name =>
          match getHdr respHeaders name with
          | some (HdrVal.str s) => if s != "" then setKV acc name s else acc
          | _ => acc) hs) }

/-! ## app.js — proxy pipeline, response phase (`onProxyRes`) -/

/-- A byte buffer. -/
abbrev Bytes := List Nat

/-- The state threaded through the overridden `res.write`/`res.end`:
`responseBody` is the `Buffer.concat` accumulation, `written` the chunks
forwarded unchanged to the original `write`/`end`. -/
structure StreamState where
  responseBody : Bytes
  written : List Bytes
  deriving DecidableEq

/-- One overridden `res.write` (or the final-chunk part of `res.end`): the
chunk is appended to the accumulation buffer and then handed to the original
write unchanged. -/
def resWrite (st : StreamState) (chunk : Bytes) : StreamState :=
  { responseBody := st.responseBody ++ chunk, written := st.written ++ [chunk] }

/-- The proxy library piping every upstream chunk through the overridden
stream operations. -/
def pipeChunks (chunks : List Bytes) : StreamState :=
  chunks.foldl resWrite { responseBody := [], written := [] }

/-- The content types app.js decodes as text. -/
def processableContentTypes : List String :=
  ["application/json", "text/", "application/xml", "application/javascript"]

/-- Checks `contentType.includes(type)` over the processable content types. -/
def shouldProcessContent (contentType : String) : Bool :=
  processableContentTypes.any (fun t => containsSub t.data contentType.data)

/-- app.js `onProxyRes` body decode: gunzip, inflate or brotli-decompress by
`Content-Encoding`, otherwise the accumulated bytes verbatim; the synchronous
zlib calls may throw, modelled by `Option`-valued decompressors. -/
def decodeBody (enc : Option String) (gunzipF inflateF brotliF : Bytes → Option Bytes)
    (buf : Bytes) : Option Bytes :=
  if enc == some "gzip" then gunzipF buf
  else if enc == some "deflate" then inflateF buf
  else if enc == some "br" then brotliF buf
  else some buf

/-- The upstream response as seen by `onProxyRes`: status, headers, and the
byte chunks the proxy library pipes to the client response. -/
structure UpstreamResponse where
  statusCode : Nat
  statusMessage : String
  headers : Headers
  chunks : List Bytes
  deriving DecidableEq

/-- The inbound request context used when assembling the logged exchange. -/
structure IncomingRequest where
  method : String
  url : String
  path : String
  headers : Headers
  requestBody : Option BodyVal
  query : List (String × String)
  deriving DecidableEq

/-- The `requestData` record built inside `onProxyRes`/`onError`; the
processable branch uses `req.requestBody || null`, the binary branch uses a
literal `null` body. -/
def reqDataOf (req : IncomingRequest) (body : Option BodyVal) : ReqData :=
  { method := req.method, url := req.url, path := req.path,
    headers := req.headers, body := body, query := req.query }

/-- Case-insensitive prefix test on character lists. -/
def isPrefixCI : List Char → List Char → Bool
  | [], _ => true
  | _ :: _, [] => false
  | p :: ps, x :: xs => (p.toLower == x.toLower) && isPrefixCI ps xs

/-- Inverse of `splitOnChar`: joins segments with the separator character. -/
def joinWithChar (c : Char) : List (List Char) → List Char
  | [] => []
  | [x] => x
  | x :: y :: xs => x ++ c :: joinWithChar c (y :: xs)

/-- One cookie-attribute rewrite of the http-proxy library
(`rewriteCookieProperty`): the regular expression `(;\s*attr=)([^;]+)` is
case-insensitive and non-global, so over the `;`-separated segments after the
cookie's name=value pair, the first segment that (after leading spaces)
starts with the attribute name and carries a non-empty value has that value
replaced; the attribute's original spacing and case are kept. -/
def rewriteFirstAttr (attr : List Char) (newVal : List Char) :
    List (List Char) → List (List Char)
  | [] => []
  | seg :: rest =>
    let pre := seg.takeWhile (fun c => c = ' ')
    let core := seg.dropWhile (fun c => c = ' ')
    if isPrefixCI attr core && attr.length < core.length then
      (pre ++ core.take attr.length ++ newVal) :: rest
    else
      seg :: rewriteFirstAttr attr newVal rest

/-- The Set-Cookie rewrite the proxy configuration (app.js lines 392–397)
applies to every cookie header delivered to the caller:
`cookieDomainRewrite: { '*': 'localhost' }` replaces the first `Domain`
attribute value with `localhost`, and `cookiePathRewrite: { '*': '/' }`
replaces the first `Path` attribute value with `/`.  The name=value segment
before the first `;` is never touched (the library regex requires a
preceding `;`). -/
def rewriteSetCookie (s : List Char) : List Char :=
  match splitOnChar ';' s with
  | [] => []
  | first :: rest =>
    joinWithChar ';'
      (first :: rewriteFirstAttr ['p', 'a', 't', 'h', '='] ['/']
        (rewriteFirstAttr ['d', 'o', 'm', 'a', 'i', 'n', '='] "localhost".data rest))

/-- The response headers as the proxy library writes them to the original
caller: identical to the upstream headers except that every delivered
`set-cookie` value goes through the configured Domain/Path rewrite. -/
def deliveredResponseHeaders (h : Headers) : Headers :=
  h.map (fun p =>
    if p.1 == "set-cookie" then
      (p.1,
        match p.2 with
        | HdrVal.arr ls => HdrVal.arr (ls.map (fun s => String.mk (rewriteSetCookie s.data)))
        | HdrVal.str s => HdrVal.str (String.mk (rewriteSetCookie s.data)))
    else p)

/-- The `set-cookie` response header as a list of cookie strings (always an
array on a Node response when present). -/
def setCookieHeader (h : Headers) : Option (List (List Char)) :=
  match getHdr h "set-cookie" with
  | some (HdrVal.arr ls) => some (ls.map (fun s => s.data))
  | some (HdrVal.str s) => some [s.data]
  | none => none

/-- Everything `onProxyRes` produces: the bytes/status/headers that reach the
original caller, the log writes performed synchronously inside the handler
(none), the log writes deferred with `setTimeout(..., 0)`, and the updated
global auth bundle. -/
structure ProxyResOutcome where
  deliveredChunks : List Bytes
  deliveredStatus : Nat
  deliveredHeaders : Headers
  immediateLog : List (ReqData × RespData)
  deferredLog : List (ReqData × RespData)
  newAuthData : Option AuthBundle
  deriving DecidableEq

/-- app.js `onProxyRes` (lines 433–561).  For processable content types the
overridden `write`/`end` accumulate the piped chunks, decode them by
`Content-Encoding` once the stream ends, and defer one `logApiRequest` via
`setTimeout(0)` (a decode throw logs nothing); other content types defer one
log with a binary-placeholder body.  The handler forwards every chunk to the
original `write`/`end` unchanged and never touches the response status or
headers itself; the proxy library then writes the upstream status and
headers to the caller, applying the configured Set-Cookie Domain/Path
rewrite to the delivered headers.  Logging and the bundle merges read the
raw `proxyRes.headers`, which the handler sees before that rewrite.
Finally the Set-Cookie and auth-header merges update the global bundle. -/
def onProxyRes (upstream : UpstreamResponse) (req : IncomingRequest)
    (gad : Option AuthBundle) (duration : Int)
    (gunzipF inflateF brotliF : Bytes → Option Bytes) (utf8 : Bytes → String) :
    ProxyResOutcome :=
  let contentEncoding := hdrStr upstream.headers "content-encoding"
  let contentType := (hdrStr upstream.headers "content-type").getD ""
  let piped := pipeChunks upstream.chunks
  let deferred :=
    if shouldProcessContent contentType then
      match decodeBody contentEncoding gunzipF inflateF brotliF piped.responseBody with
      | some decoded =>
        [(reqDataOf req req.requestBody,
          { statusCode := upstream.statusCode, statusMessage := upstream.statusMessage,
            headers := upstream.headers, body := some (BodyVal.str (utf8 decoded)),
            contentType := contentType, duration := duration })]
      | none => []
    else
      [(reqDataOf req none,
        { statusCode := upstream.statusCode, statusMessage := upstream.statusMessage,
          headers := upstream.headers,
          body := some (BodyVal.str ("[Binary content of type: " ++ contentType ++ "]")),
          contentType := contentType, duration := duration })]
  { deliveredChunks := piped.written
    deliveredStatus := upstream.statusCode
    deliveredHeaders := deliveredResponseHeaders upstream.headers
    immediateLog := []
    deferredLog := deferred
    newAuthData := mergeAuthHeaders upstream.headers
      (mergeSetCookies (setCookieHeader upstream.headers) gad) }

/-! ## app.js — proxy pipeline, failure phase (`onError`) -/

/-- What `onError` produces: the caller-facing response and the single
deferred log write. -/
structure ErrorOutcome where
  callerStatus : Nat
  callerBody : String
  immediateLog : List (ReqData × RespData)
  deferredLog : List (ReqData × RespData)
  deriving DecidableEq

/-- app.js `onError` (lines 562–589): synthesizes a 500 `Proxy Error`
exchange whose body is the error message, defers its log write with
`setTimeout(0)`, and answers the caller with status 500 and a generic
proxy-error body. -/
def onError (errMessage : String) (req : IncomingRequest) (duration : Int) :
    ErrorOutcome :=
  { callerStatus := 500
    callerBody := "Proxy error occurred"
    immediateLog := []
    deferredLog := [(reqDataOf req req.requestBody,
      { statusCode := 500, statusMessage := "Proxy Error", headers := [],
        body := some (BodyVal.str errMessage), contentType := "text/plain",
        duration := duration })] }

/-! ## Claim C6 — body truncation in the Exchange Log -/

/-- A string body one character over the claimed 2000-character bound. -/
def longBody : String := String.mk (List.replicate 2001 'a')

/-- C6 counterexample: a 2001-character string body is persisted whole by
`Database.logApiRequest` — `Database.truncateBody` performs no cut — so the
claim "a body longer than 2000 characters is cut to the first 2000 before
storage" is false. -/
theorem c6_counterexample_no_truncation :
    ((logApiRequest
        { method := "GET", url := "/api/v1/things", path := "/api/v1/things",
          headers := [], body := some (BodyVal.str longBody), query := [] }
        { statusCode := 200, statusMessage := "OK", headers := [],
          body := some (BodyVal.str longBody), contentType := "application/json",
          duration := 3 }).map (fun st => (st.requestBody, st.responseBody)))
      = some (some longBody, some longBody)
    ∧ longBody.data.length = 2001 ∧ ¬ longBody.data.length ≤ 2000 := by
  have hskip : skipLogging "/api/v1/things" = false := by decide
  have hlen : longBody.data.length = 2001 := by
    simp [longBody, List.length_replicate]
  refine ⟨?_, hlen, by omega⟩
  simp [logApiRequest, hskip, storedBodyField, databaseTruncateBody]

/-- C6 amended: persisted string bodies are stored whole at every length —
`Database.truncateBody`, the method `Database.logApiRequest` uses, returns
string bodies unchanged; no 2000-character truncation happens on the storage
path. -/
theorem c6_amended_bodies_stored_whole (rq : ReqData) (rs : RespData)
    (s t : String) (st : StoredExchange)
    (hb : rq.body = some (BodyVal.str s)) (hrb : rs.body = some (BodyVal.str t))
    (hlog : logApiRequest rq rs = some st) :
    st.requestBody = some s ∧ st.responseBody = some t := by
  unfold logApiRequest at hlog
  split at hlog
  · exact absurd hlog (by simp)
  · cases hlog
    simp [storedBodyField, databaseTruncateBody, hb, hrb]

/-- Concrete instance of the amended C6 theorem. -/
def rqW6 : ReqData :=
  { method := "GET", url := "/a", path := "/a", headers := [],
    body := some (BodyVal.str "abc"), query := [] }

def rsW6 : RespData :=
  { statusCode := 200, statusMessage := "OK", headers := [],
    body := some (BodyVal.str "xyz"), contentType := "text/plain", duration := 1 }

def stW6 : StoredExchange :=
  { method := "GET", url := "/a", path := "/a", requestHeaders := [],
    requestBody := some "abc", query := [], statusCode := 200,
    statusMessage := "OK", responseHeaders := [], responseBody := some "xyz",
    contentType := "text/plain", duration := 1 }

theorem c6_amended_bodies_stored_whole_witness :
    stW6.requestBody = some "abc" ∧ stW6.responseBody = some "xyz" :=
  c6_amended_bodies_stored_whole rqW6 rsW6 "abc" "xyz" stW6 rfl rfl (by decide)

/-! ## Claim C8 — verification without the distinguished cookie -/

/-- C8: a session bundle that is absent, lacks a cookie set, or lacks the
distinguished `.AspNet.ApplicationCookie` fails `verifySession` immediately:
the verdict is false and no identity network request is made. -/
theorem c8_verify_without_cookie_no_network (sd : Option AuthBundle)
    (net : String → Option String) (now : Int)
    (h : sd = none ∨ ∃ d, sd = some d ∧ (d.cookies = none ∨
      ∃ cs, d.cookies = some cs ∧ findAspNetCookie cs = none)) :
    verifySession sd net now = { valid := false, whoamiCalls := 0, updated := none } := by
  rcases h with h | ⟨d, rfl, h⟩
  · subst h; rfl
  · rcases h with h | ⟨cs, hcs, hfind⟩
    · simp [verifySession, h]
    · simp [verifySession, hcs, hfind]

/-- A bundle whose cookie set lacks the distinguished session cookie. -/
def bundleNoAsp : AuthBundle :=
  { cookies := some [{ name := "other", value := "v", domain := "localhost", path := "/" }],
    headers := some [], userData := none, lastRefreshed := some 0 }

def netAlwaysYes : String → Option String := fun _ => some "identity"

theorem c8_verify_without_cookie_no_network_witness :
    verifySession (some bundleNoAsp) netAlwaysYes 0
      = { valid := false, whoamiCalls := 0, updated := none } :=
  c8_verify_without_cookie_no_network (some bundleNoAsp) netAlwaysYes 0
    (Or.inr ⟨bundleNoAsp, rfl, Or.inr ⟨_, rfl, by decide⟩⟩)

/-! ## Claim C9 — exclusive 12-hour freshness boundary -/

/-- The strict rational comparison of `tryLoadSessionData` agrees with the
integer millisecond bound of 12 hours. -/
theorem loadFreshnessSplit (d : AuthBundle) (lr now : Int)
    (hlr : d.lastRefreshed = some lr) :
    (now - lr < 43200000 → tryLoadSessionData (some d) now = some d) ∧
    (43200000 ≤ now - lr → tryLoadSessionData (some d) now = none) := by
  have h2 : (12 : ℚ) * (1000 * 60 * 60) = ((43200000 : ℤ) : ℚ) := by norm_num
  have key : hoursSinceRefresh now lr < 12 ↔ now - lr < 43200000 := by
    unfold hoursSinceRefresh
    rw [div_lt_iff₀ (by norm_num : (0:ℚ) < 1000 * 60 * 60), h2, Int.cast_lt]
  constructor
  · intro h
    simp only [tryLoadSessionData, hlr]
    rw [if_pos (key.mpr h)]
  · intro h
    simp only [tryLoadSessionData, hlr]
    rw [if_neg]
    rw [key]
    omega

/-- C9: `tryLoadSessionData` uses a strict `< 12` hours comparison, so a
session file aged strictly under 12 hours (43200000 ms) is loaded and one
aged 12 hours or more — the exact 12-hour boundary included — is ignored;
the boundary is exclusive. -/
theorem c9_freshness_boundary (d : AuthBundle) (lr now : Int)
    (hlr : d.lastRefreshed = some lr) :
    (now - lr < 43200000 → tryLoadSessionData (some d) now = some d) ∧
    (43200000 ≤ now - lr → tryLoadSessionData (some d) now = none) :=
  loadFreshnessSplit d lr now hlr

/-- A session file refreshed at epoch 0. -/
def sessionFileW : AuthBundle :=
  { cookies := some [], headers := some [], userData := some "u", lastRefreshed := some 0 }

theorem c9_freshness_boundary_witness :
    tryLoadSessionData (some sessionFileW) 43140000 = some sessionFileW ∧
    tryLoadSessionData (some sessionFileW) 43200000 = none ∧
    tryLoadSessionData (some sessionFileW) 43260000 = none :=
  ⟨(c9_freshness_boundary sessionFileW 0 43140000 rfl).1 (by decide),
   (c9_freshness_boundary sessionFileW 0 43200000 rfl).2 (by decide),
   (c9_freshness_boundary sessionFileW 0 43260000 rfl).2 (by decide)⟩

/-! ## Claim C4 — synthesized proxy-error exchange -/

/-- C4: on an upstream proxy error the caller receives HTTP 500 with the
generic proxy-error body, nothing is logged synchronously, and exactly one
exchange — statusCode 500, statusMessage `Proxy Error`, body the error
message — is deferred and recorded through the same `logApiRequest` path as
a successful exchange. -/
theorem c4_proxy_error_exchange (errMessage : String) (req : IncomingRequest)
    (duration : Int) (h : skipLogging req.path = false) :
    (onError errMessage req duration).callerStatus = 500 ∧
    (onError errMessage req duration).callerBody = "Proxy error occurred" ∧
    (onError errMessage req duration).immediateLog = [] ∧
    (onError errMessage req duration).deferredLog.length = 1 ∧
    ((onError errMessage req duration).deferredLog.map
        (fun e => (logApiRequest e.1 e.2).map
          (fun st => (st.statusCode, st.statusMessage, st.responseBody))))
      = [some (500, "Proxy Error", some errMessage)] := by
  refine ⟨rfl, rfl, rfl, rfl, ?_⟩
  simp [onError, logApiRequest, reqDataOf, h, storedBodyField,
    databaseTruncateBody, jsOrStr]

/-- The request context of a proxied call that hit a connection error. -/
def reqW4 : IncomingRequest :=
  { method := "GET", url := "/api/v1/items?x=1", path := "/api/v1/items",
    headers := [("host", HdrVal.str "localhost:5000")],
    requestBody := none, query := [("x", "1")] }

theorem c4_proxy_error_exchange_witness :
    (onError "connect ECONNREFUSED 10.0.0.7:443" reqW4 21).callerStatus = 500 ∧
    (onError "connect ECONNREFUSED 10.0.0.7:443" reqW4 21).callerBody
      = "Proxy error occurred" ∧
    (onError "connect ECONNREFUSED 10.0.0.7:443" reqW4 21).immediateLog = [] ∧
    (onError "connect ECONNREFUSED 10.0.0.7:443" reqW4 21).deferredLog.length = 1 ∧
    ((onError "connect ECONNREFUSED 10.0.0.7:443" reqW4 21).deferredLog.map
        (fun e => (logApiRequest e.1 e.2).map
          (fun st => (st.statusCode, st.statusMessage, st.responseBody))))
      = [some (500, "Proxy Error", some "connect ECONNREFUSED 10.0.0.7:443")] :=
  c4_proxy_error_exchange "connect ECONNREFUSED 10.0.0.7:443" reqW4 21 (by decide)

/-! ## Claim C3 — session persistence across process restarts -/

/-- The distinguished session cookie as captured by authentication. -/
def aspCookie : Cookie :=
  { name := ".AspNet.ApplicationCookie", value := "tok", domain := "localhost", path := "/" }

/-- A fresh, complete session file as a previous process instance would have
saved it. -/
def savedSessionFile : AuthBundle :=
  { cookies := some [aspCookie],
    headers := some [("user-agent", "UA")], userData := some "user@example.com",
    lastRefreshed := some 0 }

/-- C3 counterexample: a session file saved one hour ago — well inside the
12-hour freshness window, as the first conjunct shows — is nevertheless not
loaded by a newly started proxy process, because app.js removes the session
file at startup before any load can happen; the restarted process is forced
into fresh interactive authentication. -/
theorem c3_counterexample_restart_discards_session :
    tryLoadSessionData (some savedSessionFile) 3600000 = some savedSessionFile ∧
    tryLoadSessionData (startupRemoveSessionFile (some savedSessionFile)) 3600000
      = none := by
  constructor
  · have h12 : (3600000 : ℤ) - 0 < 43200000 := by decide
    exact (loadFreshnessSplit savedSessionFile 0 3600000 rfl).1 h12
  · rfl

/-- C3 amended: the proxy deletes the session file at startup, so a bundle
saved by one process instance is never loaded by the next — every restart
forces a fresh interactive authentication; the under-12-hours reload of a
saved bundle works only while the file still exists, i.e. within the same
process run. -/
theorem c3_amended_startup_removes_session_file (file : Option AuthBundle)
    (now : Int) (d : AuthBundle) (lr : Int)
    (hlr : d.lastRefreshed = some lr) (hfresh : now - lr < 43200000) :
    tryLoadSessionData (startupRemoveSessionFile file) now = none ∧
    tryLoadSessionData (some d) now = some d :=
  ⟨rfl, (loadFreshnessSplit d lr now hlr).1 hfresh⟩

theorem c3_amended_startup_removes_session_file_witness :
    tryLoadSessionData (startupRemoveSessionFile (some savedSessionFile)) 3600000
      = none ∧
    tryLoadSessionData (some savedSessionFile) 3600000 = some savedSessionFile :=
  c3_amended_startup_removes_session_file (some savedSessionFile) 3600000
    savedSessionFile 0 rfl (by decide)

/-! ## Claim C5 — identity-verifier calls under repeated refresh -/

/-- A valid cached bundle holding the distinguished session cookie. -/
def cachedBundle : AuthBundle :=
  { cookies := some [aspCookie],
    headers := some [("user-agent", "UA")], userData := some "user@example.com",
    lastRefreshed := some 0 }

/-- An identity endpoint that accepts the session. -/
def netAccepts : String → Option String := fun _ => some "user@example.com"

/-- C5 counterexample: two successive `refreshSession` calls on a valid
cached bundle each verify the session over the network — two identity
network calls in total, not at most one; neither call runs the interactive
authenticator. -/
theorem c5_counterexample_two_refreshes_two_calls :
    (refreshTwice cachedBundle netAccepts 100 200).1.whoamiCalls
        + (refreshTwice cachedBundle netAccepts 100 200).2.whoamiCalls = 2 ∧
    ¬ ((refreshTwice cachedBundle netAccepts 100 200).1.whoamiCalls
        + (refreshTwice cachedBundle netAccepts 100 200).2.whoamiCalls ≤ 1) ∧
    (refreshTwice cachedBundle netAccepts 100 200).1.interactiveAuth = false ∧
    (refreshTwice cachedBundle netAccepts 100 200).2.interactiveAuth = false := by
  refine ⟨by decide, by decide, by decide, by decide⟩

/-- C5 amended: with a valid cached bundle, each `refreshSession` call
performs exactly one identity-verifier network call — so two successive
calls perform two, one per call — and each returns the (refreshed) existing
bundle without running the interactive authenticator. -/
theorem c5_amended_one_verifier_call_per_refresh (pad : AuthBundle)
    (net : String → Option String) (now1 now2 : Int) (cs : List Cookie)
    (c : Cookie) (u : String)
    (hcs : pad.cookies = some cs) (hc : findAspNetCookie cs = some c)
    (hn : net c.value = some u) :
    (refreshTwice pad net now1 now2).1.whoamiCalls = 1 ∧
    (refreshTwice pad net now1 now2).2.whoamiCalls = 1 ∧
    (refreshTwice pad net now1 now2).1.interactiveAuth = false ∧
    (refreshTwice pad net now1 now2).2.interactiveAuth = false ∧
    (refreshTwice pad net now1 now2).1.bundle
      = some { pad with userData := some u, lastRefreshed := some now1 } := by
  have h1 : refreshSession pad net now1
      = { bundle := some { pad with userData := some u, lastRefreshed := some now1 },
          whoamiCalls := 1, interactiveAuth := false } := by
    simp [refreshSession, verifySession, hcs, hc, hn]
  have h2 : refreshSession { pad with userData := some u, lastRefreshed := some now1 }
        net now2
      = { bundle := some { pad with userData := some u, lastRefreshed := some now2 },
          whoamiCalls := 1, interactiveAuth := false } := by
    simp [refreshSession, verifySession, hcs, hc, hn]
  simp [refreshTwice, h1, h2]

theorem c5_amended_one_verifier_call_per_refresh_witness :
    (refreshTwice cachedBundle netAccepts 100 200).1.whoamiCalls = 1 ∧
    (refreshTwice cachedBundle netAccepts 100 200).2.whoamiCalls = 1 ∧
    (refreshTwice cachedBundle netAccepts 100 200).1.interactiveAuth = false ∧
    (refreshTwice cachedBundle netAccepts 100 200).2.interactiveAuth = false ∧
    (refreshTwice cachedBundle netAccepts 100 200).1.bundle
      = some { cachedBundle with userData := some "user@example.com", lastRefreshed := some 100 } :=
  c5_amended_one_verifier_call_per_refresh cachedBundle netAccepts 100 200
    [aspCookie] aspCookie "user@example.com" rfl (by decide) rfl

/-! ## Claim C7 — header redaction in the Exchange Log -/

/-- A request that arrived with an empty-valued authorization header. -/
def rqC7 : ReqData :=
  { method := "GET", url := "/api/v1/y", path := "/api/v1/y",
    headers := [("authorization", HdrVal.str "")], body := none, query := [] }

def rsC7 : RespData :=
  { statusCode := 200, statusMessage := "OK", headers := [], body := none,
    contentType := "text/plain", duration := 0 }

/-- C7 counterexample: `sanitizeHeaders` redacts only truthy values
(`if (sanitized[header])`), so an authorization header that is present with
the empty-string value is written to storage as itself, not as the redaction
marker — the claim that any present value under a sensitive name is replaced
is false. -/
theorem c7_counterexample_empty_value_not_redacted :
    ((logApiRequest rqC7 rsC7).map (fun st => st.requestHeaders))
      = some [("authorization", HdrVal.str "")] ∧
    HdrVal.str "" ≠ HdrVal.str "[REDACTED]" := by
  refine ⟨by decide, by decide⟩

/-- Membership in a sanitized header map: an entry under a sensitive name is
either the redaction marker or carried a falsy (empty) value. -/
theorem mem_sanitizeHeaders (h : Headers) (p : String × HdrVal)
    (hp : p ∈ sanitizeHeaders h) (hs : sensitiveHeaders.contains p.1 = true) :
    p.2 = HdrVal.str "[REDACTED]" ∨ p.2.truthy = false := by
  unfold sanitizeHeaders at hp
  rcases List.mem_map.mp hp with ⟨q, hq, hpq⟩
  by_cases hc : (sensitiveHeaders.contains q.1 && q.2.truthy) = true
  · rw [if_pos hc] at hpq
    subst hpq
    exact Or.inl rfl
  · rw [if_neg hc] at hpq
    subst hpq
    right
    rw [hs, Bool.true_and] at hc
    simpa using hc

/-- C7 amended: in every persisted exchange, any header entry under a
sensitive name (authorization, cookie, set-cookie, x-auth-token), in the
stored request headers or the stored response headers, is either the
`[REDACTED]` marker or had a falsy (empty-string) value — no non-empty
cleartext credential value is ever stored. -/
theorem c7_amended_nonempty_values_redacted (rq : ReqData) (rs : RespData)
    (st : StoredExchange) (p : String × HdrVal)
    (hlog : logApiRequest rq rs = some st)
    (hp : p ∈ st.requestHeaders ∨ p ∈ st.responseHeaders)
    (hs : sensitiveHeaders.contains p.1 = true) :
    p.2 = HdrVal.str "[REDACTED]" ∨ p.2.truthy = false := by
  unfold logApiRequest at hlog
  split at hlog
  · exact absurd hlog (by simp)
  · cases hlog
    rcases hp with hp | hp
    · exact mem_sanitizeHeaders rq.headers p hp hs
    · exact mem_sanitizeHeaders rs.headers p hp hs

/-- A request with a real bearer token, and the exchange row it produces. -/
def rqW7 : ReqData :=
  { method := "GET", url := "/api/v1/z", path := "/api/v1/z",
    headers := [("authorization", HdrVal.str "Bearer xyz")], body := none, query := [] }

def rsW7 : RespData :=
  { statusCode := 200, statusMessage := "OK",
    headers := [("set-cookie", HdrVal.arr ["sid=1"])], body := none,
    contentType := "text/plain", duration := 0 }

def stW7 : StoredExchange :=
  { method := "GET", url := "/api/v1/z", path := "/api/v1/z",
    requestHeaders := [("authorization", HdrVal.str "[REDACTED]")],
    requestBody := some "null", query := [], statusCode := 200,
    statusMessage := "OK",
    responseHeaders := [("set-cookie", HdrVal.str "[REDACTED]")],
    responseBody := some "null", contentType := "text/plain", duration := 0 }

theorem c7_amended_nonempty_values_redacted_witness :
    (("authorization", HdrVal.str "[REDACTED]") : String × HdrVal).2
        = HdrVal.str "[REDACTED]" ∨
      (("authorization", HdrVal.str "[REDACTED]") : String × HdrVal).2.truthy = false :=
  c7_amended_nonempty_values_redacted rqW7 rsW7 stW7
    ("authorization", HdrVal.str "[REDACTED]") (by decide)
    (Or.inl (by decide)) (by decide)

/-! ## Claim C2 — stripping client credentials on outbound requests -/

/-- C2 counterexample: the removal loop of `onProxyReq` is guarded by
JavaScript truthiness, so a client-supplied `authorization` header with an
empty value is not removed and survives to the outbound request — two runs
that differ only in that client-supplied credential header produce different
outbound header maps, so the outbound credential headers are not determined
solely by the auth bundle. -/
theorem c2_counterexample_empty_auth_header_survives :
    getHdr (onProxyReq [("authorization", HdrVal.str "")] (some cachedBundle))
        "authorization" = some (HdrVal.str "") ∧
    getHdr (onProxyReq [] (some cachedBundle)) "authorization" = none := by
  refine ⟨by decide, by decide⟩

/-- The removal loop of `onProxyReq`, generalized over the list of header
names, removes exactly the entries under those names whenever every such
entry holds a truthy value. -/
theorem strip_loop_eq_filter (names : List String) (h : Headers)
    (ht : ∀ p ∈ h, names.contains p.1 = true → p.2.truthy = true) :
    names.foldl
      (fun acc name =>
        match getHdr acc name with
        | some v => if v.truthy then removeHeader acc name else acc
        | none => acc) h
    = h.filter (fun p => !names.contains p.1) := by
  induction names generalizing h with
  | nil => simp
  | cons n ns ih =>
    have step_eq : (match getHdr h n with
        | some v => if v.truthy then removeHeader h n else h
        | none => h) = h.filter (fun p => p.1 != n) := by
      cases hg : getHdr h n with
      | none =>
        have hfind : h.find? (fun p => p.1 == n) = none := by
          cases hf : h.find? (fun p => p.1 == n) with
          | none => rfl
          | some q => simp [getHdr, hf] at hg
        have hall : ∀ p ∈ h, (p.1 != n) = true := by
          intro p hp
          have h0 : ¬ ((p.1 == n) = true) := by
            simpa using List.find?_eq_none.mp hfind p hp
          simp [bne]
          simpa using h0
        exact (List.filter_eq_self.mpr hall).symm
      | some v =>
        obtain ⟨q, hfind⟩ : ∃ q, h.find? (fun p => p.1 == n) = some q := by
          cases hf : h.find? (fun p => p.1 == n) with
          | none => simp [getHdr, hf] at hg
          | some q => exact ⟨q, rfl⟩
        have hqmem : q ∈ h := List.mem_of_find?_eq_some hfind
        have hqkey : (q.1 == n) = true := by
          have := List.find?_some hfind
          exact this
        have hqv : q.2 = v := by
          simp [getHdr, hfind] at hg
          exact hg
        have hvt : v.truthy = true := by
          rw [← hqv]
          refine ht q hqmem ?_
          rw [List.contains_cons, hqkey]
          simp
        simp only [hvt, if_true]
        rfl
    simp only [List.foldl_cons]
    rw [step_eq,
      ih (h.filter (fun p => p.1 != n)) (by
        intro p hp hm
        refine ht p (List.mem_of_mem_filter hp) ?_
        rw [List.contains_cons, hm]
        simp)]
    rw [List.filter_filter]
    apply List.filter_congr
    intro p _
    rw [List.contains_cons]
    cases he : (p.1 == n) with
    | true => simp [bne, he]
    | false => simp [bne, he]

/-- The function `stripClientCredentialHeaders` removes exactly the credential-named
entries whenever every such entry holds a truthy value. -/
theorem stripClientCredentialHeaders_eq_filter (h : Headers)
    (ht : ∀ p ∈ h, headersToRemove.contains p.1 = true → p.2.truthy = true) :
    stripClientCredentialHeaders h = h.filter (fun p => !headersToRemove.contains p.1) :=
  strip_loop_eq_filter headersToRemove h ht

/-- C2 amended: provided every client-supplied credential header
(authorization, cookie, auth-token, x-auth-token) carries a non-empty value,
`onProxyReq` produces exactly the outbound headers it would produce had the
client sent no credential headers at all — the outbound credential headers
are determined solely by the auth bundle (an empty-valued client credential
header, however, survives, as the counterexample shows). -/
theorem c2_amended_client_credentials_ignored (ch : Headers) (ad : Option AuthBundle)
    (ht : ∀ p ∈ ch, headersToRemove.contains p.1 = true → p.2.truthy = true) :
    onProxyReq ch ad = onProxyReq (ch.filter (fun p => !headersToRemove.contains p.1)) ad := by
  have h1 : stripClientCredentialHeaders ch
      = ch.filter (fun p => !headersToRemove.contains p.1) :=
    stripClientCredentialHeaders_eq_filter ch ht
  have h2s : stripClientCredentialHeaders (ch.filter (fun p => !headersToRemove.contains p.1))
      = ch.filter (fun p => !headersToRemove.contains p.1) := by
    rw [stripClientCredentialHeaders_eq_filter _ (by
      intro p hp hm
      have := List.of_mem_filter hp
      rw [hm] at this
      simp at this)]
    apply List.filter_eq_self.mpr
    intro a ha
    have := List.of_mem_filter ha
    simpa using this
  unfold onProxyReq
  rw [h1, h2s]

/-- A typical inbound request carrying a client bearer token. -/
def clientHeadersW : Headers :=
  [("authorization", HdrVal.str "Bearer xyz"), ("accept", HdrVal.str "application/json")]

theorem c2_amended_client_credentials_ignored_witness :
    onProxyReq clientHeadersW (some cachedBundle)
      = onProxyReq (clientHeadersW.filter (fun p => !headersToRemove.contains p.1))
          (some cachedBundle) :=
  c2_amended_client_credentials_ignored clientHeadersW (some cachedBundle) (by decide)

/-! ## Claim C1 — transparent capture of proxied responses -/

/-- The total accumulation the overridden stream operations build up
(`Buffer.concat` applied chunk by chunk). -/
def accumulate (chunks : List Bytes) : Bytes :=
  chunks.foldl (fun acc c => acc ++ c) []

theorem foldl_append_init (cs : List Bytes) :
    ∀ a : Bytes, cs.foldl (fun acc c => acc ++ c) a = a ++ accumulate cs := by
  induction cs with
  | nil => intro a; simp [accumulate]
  | cons d ds ih =>
    intro a
    simp only [List.foldl_cons]
    rw [ih (a ++ d)]
    have h2 : accumulate (d :: ds) = d ++ accumulate ds := by
      show List.foldl (fun acc c => acc ++ c) ([] ++ d) ds = d ++ accumulate ds
      rw [ih ([] ++ d)]
      simp
    rw [h2, List.append_assoc]

theorem accumulate_cons (d : Bytes) (ds : List Bytes) :
    accumulate (d :: ds) = d ++ accumulate ds := by
  show List.foldl (fun acc c => acc ++ c) ([] ++ d) ds = d ++ accumulate ds
  rw [foldl_append_init ds ([] ++ d)]
  simp

/-- The overridden `write`/`end` pair is transparent: every chunk is forwarded
unchanged, and the private buffer ends up holding their concatenation. -/
theorem pipeChunks_spec (chunks : List Bytes) :
    (pipeChunks chunks).written = chunks ∧
    (pipeChunks chunks).responseBody = accumulate chunks := by
  have key : ∀ (st : StreamState),
      (chunks.foldl resWrite st).written = st.written ++ chunks ∧
      (chunks.foldl resWrite st).responseBody = st.responseBody ++ accumulate chunks := by
    induction chunks with
    | nil => intro st; simp [accumulate]
    | cons c cs ih =>
      intro st
      simp only [List.foldl_cons]
      refine ⟨?_, ?_⟩
      · rw [(ih (resWrite st c)).1]
        simp [resWrite]
      · rw [(ih (resWrite st c)).2, accumulate_cons]
        simp [resWrite, List.append_assoc]
  have h := key { responseBody := [], written := [] }
  simpa [pipeChunks] using h

/-- A processable JSON upstream response carrying a Set-Cookie header with
explicit Domain and Path attributes. -/
def upstreamSC : UpstreamResponse :=
  { statusCode := 200, statusMessage := "OK",
    headers := [("content-type", HdrVal.str "application/json"),
                ("set-cookie", HdrVal.arr ["sid=1; Domain=portal.example.com; Path=/app"])],
    chunks := [[104, 105]] }

def utf8SC : Bytes → String := fun b => if b = [104, 105] then "hi" else ""

def reqSC : IncomingRequest :=
  { method := "GET", url := "/api/v1/data", path := "/api/v1/data", headers := [],
    requestBody := none, query := [] }

/-- C1 counterexample: the proxy configuration rewrites the Domain and Path
attributes of delivered Set-Cookie headers (`cookieDomainRewrite` /
`cookiePathRewrite`, app.js lines 392–397), so for a processable JSON
response with `Set-Cookie: sid=1; Domain=portal.example.com; Path=/app` the
headers delivered to the original caller are not exactly those produced by
the upstream — the delivered cookie reads `Domain=localhost; Path=/`. -/
theorem c1_counterexample_set_cookie_rewritten :
    (onProxyRes upstreamSC reqSC none 7 (fun _ => none) (fun _ => none) (fun _ => none)
        utf8SC).deliveredHeaders ≠ upstreamSC.headers ∧
    getHdr ((onProxyRes upstreamSC reqSC none 7 (fun _ => none) (fun _ => none)
        (fun _ => none) utf8SC).deliveredHeaders) "set-cookie"
      = some (HdrVal.arr ["sid=1; Domain=localhost; Path=/"]) ∧
    getHdr upstreamSC.headers "set-cookie"
      = some (HdrVal.arr ["sid=1; Domain=portal.example.com; Path=/app"]) ∧
    shouldProcessContent ((hdrStr upstreamSC.headers "content-type").getD "") = true ∧
    hdrStr upstreamSC.headers "content-encoding" = none := by
  refine ⟨by decide, by decide, by decide, by decide, by decide⟩

/-- A response without Set-Cookie headers is delivered with its headers
untouched: the Domain/Path rewrite only applies to `set-cookie` entries. -/
theorem deliveredResponseHeaders_no_set_cookie (h : Headers)
    (hnone : getHdr h "set-cookie" = none) : deliveredResponseHeaders h = h := by
  have hfind : h.find? (fun p => p.1 == "set-cookie") = none := by
    cases hf : h.find? (fun p => p.1 == "set-cookie") with
    | none => rfl
    | some q => simp [getHdr, hf] at hnone
  have hall : ∀ p ∈ h, (p.1 == "set-cookie") = false := by
    intro p hp
    have := List.find?_eq_none.mp hfind p hp
    simpa using this
  unfold deliveredResponseHeaders
  calc h.map _ = h.map id := List.map_congr_left (fun p hp => by rw [hall p hp]; simp)
    _ = h := List.map_id h

/-- C1 amended: for a processable (textual) content type and a recognized
content encoding whose decode succeeds, `onProxyRes` forwards the upstream
bytes and status code to the caller exactly as received, logs nothing
synchronously, and defers exactly one exchange whose response body is the
UTF-8 text of the decoded accumulated bytes (gunzipped / inflated /
brotli-decompressed / verbatim according to `Content-Encoding`).  The
delivered headers equal the upstream headers after the configured Set-Cookie
Domain/Path rewrite — and are exactly the upstream headers whenever the
response carries no Set-Cookie header. -/
theorem c1_amended_transparent_capture
    (upstream : UpstreamResponse) (req : IncomingRequest) (gad : Option AuthBundle)
    (duration : Int) (gunzipF inflateF brotliF : Bytes → Option Bytes)
    (utf8 : Bytes → String) (decoded : Bytes)
    (hproc : shouldProcessContent ((hdrStr upstream.headers "content-type").getD "") = true)
    (_henc : hdrStr upstream.headers "content-encoding" ∈
      [some "gzip", some "deflate", some "br", some "identity", none])
    (hdec : decodeBody (hdrStr upstream.headers "content-encoding")
      gunzipF inflateF brotliF (accumulate upstream.chunks) = some decoded) :
    (onProxyRes upstream req gad duration gunzipF inflateF brotliF utf8).deliveredChunks
      = upstream.chunks ∧
    (onProxyRes upstream req gad duration gunzipF inflateF brotliF utf8).deliveredStatus
      = upstream.statusCode ∧
    (onProxyRes upstream req gad duration gunzipF inflateF brotliF utf8).deliveredHeaders
      = deliveredResponseHeaders upstream.headers ∧
    (getHdr upstream.headers "set-cookie" = none →
      (onProxyRes upstream req gad duration gunzipF inflateF brotliF utf8).deliveredHeaders
        = upstream.headers) ∧
    (onProxyRes upstream req gad duration gunzipF inflateF brotliF utf8).immediateLog
      = [] ∧
    (onProxyRes upstream req gad duration gunzipF inflateF brotliF utf8).deferredLog
      = [(reqDataOf req req.requestBody,
          { statusCode := upstream.statusCode, statusMessage := upstream.statusMessage,
            headers := upstream.headers, body := some (BodyVal.str (utf8 decoded)),
            contentType := (hdrStr upstream.headers "content-type").getD "",
            duration := duration })] := by
  obtain ⟨hw, hb⟩ := pipeChunks_spec upstream.chunks
  simp only [onProxyRes]
  rw [hb, hw, hproc, hdec]
  refine ⟨by simp, by simp, by simp,
    fun hnone => deliveredResponseHeaders_no_set_cookie upstream.headers hnone,
    by simp, by simp⟩

/-- A gzip JSON upstream response. -/
def upstreamW : UpstreamResponse :=
  { statusCode := 200, statusMessage := "OK",
    headers := [("content-type", HdrVal.str "application/json"),
                ("content-encoding", HdrVal.str "gzip")],
    chunks := [[31, 139], [8, 0]] }

def reqW1 : IncomingRequest :=
  { method := "GET", url := "/api/v1/data", path := "/api/v1/data", headers := [],
    requestBody := none, query := [] }

/-- A concrete stand-in for `zlib.gunzipSync` on the witness input. -/
def gunzipW : Bytes → Option Bytes :=
  fun b => if b = [31, 139, 8, 0] then some [104, 105] else none

def utf8W : Bytes → String := fun b => if b = [104, 105] then "hi" else ""

theorem c1_amended_transparent_capture_witness :
    (onProxyRes upstreamW reqW1 none 7 gunzipW (fun _ => none) (fun _ => none)
        utf8W).deliveredChunks = upstreamW.chunks ∧
    (onProxyRes upstreamW reqW1 none 7 gunzipW (fun _ => none) (fun _ => none)
        utf8W).deliveredStatus = upstreamW.statusCode ∧
    (onProxyRes upstreamW reqW1 none 7 gunzipW (fun _ => none) (fun _ => none)
        utf8W).deliveredHeaders = deliveredResponseHeaders upstreamW.headers ∧
    (getHdr upstreamW.headers "set-cookie" = none →
      (onProxyRes upstreamW reqW1 none 7 gunzipW (fun _ => none) (fun _ => none)
          utf8W).deliveredHeaders = upstreamW.headers) ∧
    (onProxyRes upstreamW reqW1 none 7 gunzipW (fun _ => none) (fun _ => none)
        utf8W).immediateLog = [] ∧
    (onProxyRes upstreamW reqW1 none 7 gunzipW (fun _ => none) (fun _ => none)
        utf8W).deferredLog
      = [(reqDataOf reqW1 reqW1.requestBody,
          { statusCode := upstreamW.statusCode, statusMessage := upstreamW.statusMessage,
            headers := upstreamW.headers, body := some (BodyVal.str (utf8W [104, 105])),
            contentType := (hdrStr upstreamW.headers "content-type").getD "",
            duration := 7 })] :=
  c1_amended_transparent_capture upstreamW reqW1 none 7 gunzipW (fun _ => none)
    (fun _ => none) utf8W [104, 105] (by decide) (by decide) (by decide)

/-! ## Claim C10 — Set-Cookie merge parsing quirks -/

theorem splitOnChar_ne_nil (c : Char) (l : List Char) : splitOnChar c l ≠ [] := by
  induction l with
  | nil => simp [splitOnChar]
  | cons x xs ih =>
    by_cases hx : x = c
    · simp [splitOnChar, hx]
    · simp only [splitOnChar, if_neg hx]
      cases h : splitOnChar c xs with
      | nil => simp
      | cons a t => simp

/-- The first segment of a single-character split is the longest prefix free
of the separator. -/
theorem splitOnChar_headD (c : Char) (l : List Char) :
    (splitOnChar c l).headD [] = l.takeWhile (fun x => x != c) := by
  induction l with
  | nil => rfl
  | cons x xs ih =>
    by_cases hx : x = c
    · subst hx
      simp [splitOnChar, List.takeWhile_cons]
    · have hne := splitOnChar_ne_nil c xs
      cases h : splitOnChar c xs with
      | nil => exact absurd h hne
      | cons a t =>
        rw [h] at ih
        simp only [splitOnChar, if_neg hx, h, List.headD, List.takeWhile_cons]
        have hxb : (x != c) = true := by simp [bne, hx]
        rw [hxb]
        simp only [if_true, List.headD] at ih ⊢
        rw [ih]

/-- Splitting a list that starts with a separator-free prefix followed by the
separator peels off that prefix as the first segment. -/
theorem splitOnChar_append_cons (c : Char) (xs ys : List Char) (hxs : c ∉ xs) :
    splitOnChar c (xs ++ c :: ys) = xs :: splitOnChar c ys := by
  induction xs with
  | nil => simp [splitOnChar]
  | cons a as ih =>
    have ha : a ≠ c := fun hh => hxs (hh ▸ List.mem_cons_self a as)
    have h2 : c ∉ as := fun hh => hxs (List.mem_cons_of_mem a hh)
    have hrec := ih h2
    show splitOnChar c (a :: (as ++ c :: ys)) = (a :: as) :: splitOnChar c ys
    simp only [splitOnChar, if_neg ha]
    rw [hrec]

theorem takeWhile_cons_true (p : Char → Bool) (a : Char) (l : List Char)
    (h : p a = true) :
    (a :: l).takeWhile p = a :: l.takeWhile p := by
  simp [List.takeWhile_cons, h]

theorem takeWhile_append_all (p : Char → Bool) (xs ys : List Char)
    (h : ∀ x ∈ xs, p x = true) :
    (xs ++ ys).takeWhile p = xs ++ ys.takeWhile p := by
  induction xs with
  | nil => simp
  | cons a as ih =>
    have ha : p a = true := h a (List.mem_cons_self a as)
    rw [List.cons_append, takeWhile_cons_true p a _ ha,
      ih (fun x hx => h x (List.mem_cons_of_mem a hx)), List.cons_append]

/-- C10: the Set-Cookie merge looks only at the text before the first `;`,
split on `=`: a value containing `=` is cut down to the segment between the
first and second `=` (the remainder is dropped), the result is upserted by
name into the live bundle's cookie set, and a Set-Cookie with an empty value
performs no upsert at all. -/
theorem c10_set_cookie_merge_quirks (name v1 rest : List Char) (cs : List Cookie)
    (g : AuthBundle)
    (hn1 : name ≠ []) (hn2 : '=' ∉ name) (hn3 : ';' ∉ name)
    (hv1 : v1 ≠ []) (hv2 : '=' ∉ v1) (hv3 : ';' ∉ v1)
    (hg : g.cookies = some cs) :
    parseSetCookie (name ++ '=' :: (v1 ++ '=' :: rest)) = some (name, v1) ∧
    mergeSetCookie cs (name ++ '=' :: (v1 ++ '=' :: rest))
      = upsertCookie cs (String.mk name) (String.mk v1) ∧
    mergeSetCookies (some [name ++ '=' :: (v1 ++ '=' :: rest)]) (some g)
      = some { g with cookies := some (upsertCookie cs (String.mk name) (String.mk v1)) } ∧
    parseSetCookie (name ++ ['=']) = none ∧
    mergeSetCookie cs (name ++ ['=']) = cs := by
  have hnotsemi : ∀ x ∈ name, (x != ';') = true := by
    intro x hx
    have : x ≠ ';' := fun hh => hn3 (hh ▸ hx)
    simp [bne, this]
  have hvnotsemi : ∀ x ∈ v1, (x != ';') = true := by
    intro x hx
    have : x ≠ ';' := fun hh => hv3 (hh ▸ hx)
    simp [bne, this]
  have heqsemi : ('=' != ';') = true := by decide
  -- the main part of the full cookie string
  have hmain : ((splitOnChar ';' (name ++ '=' :: (v1 ++ '=' :: rest))).headD [])
      = name ++ '=' :: (v1 ++ '=' :: rest.takeWhile (fun x => x != ';')) := by
    rw [splitOnChar_headD,
      takeWhile_append_all (fun x => x != ';') name ('=' :: (v1 ++ '=' :: rest)) hnotsemi,
      takeWhile_cons_true (fun x => x != ';') '=' (v1 ++ '=' :: rest) heqsemi,
      takeWhile_append_all (fun x => x != ';') v1 ('=' :: rest) hvnotsemi,
      takeWhile_cons_true (fun x => x != ';') '=' rest heqsemi]
  have hparse : parseSetCookie (name ++ '=' :: (v1 ++ '=' :: rest)) = some (name, v1) := by
    simp only [parseSetCookie]
    rw [hmain, splitOnChar_append_cons '=' name _ hn2,
      splitOnChar_append_cons '=' v1 _ hv2]
    simp [hn1, hv1]
  -- the empty-value cookie string
  have hmain2 : ((splitOnChar ';' (name ++ ['='])).headD []) = name ++ ['='] := by
    rw [splitOnChar_headD,
      takeWhile_append_all (fun x => x != ';') name ['='] hnotsemi,
      takeWhile_cons_true (fun x => x != ';') '=' [] heqsemi]
    rfl
  have hparse2 : parseSetCookie (name ++ ['=']) = none := by
    simp only [parseSetCookie]
    rw [hmain2, splitOnChar_append_cons '=' name _ hn2]
    simp [splitOnChar]
  refine ⟨hparse, ?_, ?_, hparse2, ?_⟩
  · rw [mergeSetCookie, hparse]
  · rw [mergeSetCookies, hg]
    simp only [List.foldl_cons, List.foldl_nil]
    rw [mergeSetCookie, hparse]
  · rw [mergeSetCookie, hparse2]

theorem c10_set_cookie_merge_quirks_witness :
    parseSetCookie (['s', 'i', 'd'] ++ '=' :: (['a', 'b'] ++ '=' ::
        ['=', ';', ' ', 'P', 'a', 't', 'h', '=', '/']))
      = some (['s', 'i', 'd'], ['a', 'b']) ∧
    mergeSetCookie [aspCookie] (['s', 'i', 'd'] ++ '=' :: (['a', 'b'] ++ '=' ::
        ['=', ';', ' ', 'P', 'a', 't', 'h', '=', '/']))
      = upsertCookie [aspCookie] (String.mk ['s', 'i', 'd']) (String.mk ['a', 'b']) ∧
    mergeSetCookies (some [['s', 'i', 'd'] ++ '=' :: (['a', 'b'] ++ '=' ::
        ['=', ';', ' ', 'P', 'a', 't', 'h', '=', '/'])]) (some cachedBundle)
      = some { cachedBundle with cookies := some (upsertCookie [aspCookie]
          (String.mk ['s', 'i', 'd']) (String.mk ['a', 'b'])) } ∧
    parseSetCookie (['s', 'i', 'd'] ++ ['=']) = none ∧
    mergeSetCookie [aspCookie] (['s', 'i', 'd'] ++ ['=']) = [aspCookie] :=
  c10_set_cookie_merge_quirks ['s', 'i', 'd'] ['a', 'b']
    ['=', ';', ' ', 'P', 'a', 't', 'h', '=', '/'] [aspCookie] cachedBundle
    (by decide) (by decide) (by decide) (by decide) (by decide) (by decide) rfl

end PortalProxy
